import Mathlib

/-!
Shallow embedding of the orbitize core (src/orbitize/kepler.py and
src/orbitize/sampler.py) and proofs about the specified properties of the
anomaly solver, the orbit projector and the two samplers.
-/

namespace Orbitize

/-! ### Shape model for numpy arrays inside kepler.calc_orbit (kepler.py lines 37-106) -/

/-- Shape of np.tile(x, (reps, 1)) for a 1-D array x of length n
(kepler.py lines 40-48): the result is a 2-D array of shape (reps, n). -/
def tileShape (n reps : Nat) : List Nat := [reps, n]

/-- Shape of np.transpose of an array: the axis list reversed. -/
def transposeShape (s : List Nat) : List Nat := s.reverse

/-- np.squeeze removes every axis of extent 1 (kepler.py lines 102-104). -/
def squeezeShape : List Nat → List Nat
  | [] => []
  | d :: rest => if d = 1 then squeezeShape rest else d :: squeezeShape rest

/-- Shape of each tiled per-orbit parameter inside calc_orbit
(np.transpose(np.tile(param, (n_dates, 1))), kepler.py lines 40-47). -/
def tiledParamShape (nOrbs nDates : Nat) : List Nat :=
  transposeShape (tileShape nOrbs nDates)

/-- Shape of np.tile(epochs, (n_orbs, 1)) (kepler.py line 48). -/
def tiledEpochShape (nOrbs nDates : Nat) : List Nat := tileShape nDates nOrbs

/-- Shape of raoff/deoff/vz returned by calc_orbit (kepler.py lines 101-106):
all elementwise arithmetic in lines 51-99 preserves the common operand shape
(n_orbs, n_dates), and np.squeeze is applied just before returning. -/
def calcOrbitOutShape (nOrbs nDates : Nat) : List Nat :=
  squeezeShape (tiledParamShape nOrbs nDates)

/-! ### MCMC.run_sampler step count (sampler.py lines 458-460) -/

/-- nsteps as computed on sampler.py line 458:
int(np.ceil(total_orbits / num_walkers)), with Python-3 true division
modelled exactly over the rationals. -/
def mcmcNsteps (totalOrbits numWalkers : Nat) : Int :=
  ⌈(totalOrbits : ℚ) / (numWalkers : ℚ)⌉

/-- The assert on sampler.py line 460 passes iff nsteps > 0. -/
def mcmcAssertPasses (totalOrbits numWalkers : Nat) : Prop :=
  0 < mcmcNsteps totalOrbits numWalkers

instance (t w : Nat) : Decidable (mcmcAssertPasses t w) := by
  unfold mcmcAssertPasses; infer_instance

/-! ### MCMC.chop_chains length bookkeeping (sampler.py lines 562-607) -/

/-- Number of entries of the chopped, flattened lnlikes array: the slice
new_lnlikes[:, keep_start:keep_end] (sampler.py line 599) keeps
n_steps - burn - trim steps for each of num_walkers walkers. -/
def chopLnlikesLen (numWalkers nSteps burn trim : Nat) : Nat :=
  numWalkers * (nSteps - burn - trim)

/-- Element count demanded by the reshape on sampler.py line 604,
self.num_walkers * nsteps, reading the stale name nsteps as the pre-chop
step count n_steps (the name nsteps is in fact not defined anywhere in
chop_chains, so at runtime the line raises NameError; line 600 moreover
contains an unbalanced closing parenthesis, a SyntaxError). -/
def chopReshapeRequestedLen (numWalkers nSteps : Nat) : Nat :=
  numWalkers * nSteps

/-! ### OFTI.run_sampler accumulation loop (sampler.py lines 233-274)

The loop draws a batch, runs reject(), and copies the first
maxindex2save = min(n_accepted, total_orbits - n_orbits_saved) accepted
orbits (and, with identical indices, their log-likelihoods) into the
output arrays, then advances n_orbits_saved by maxindex2save.  The numpy
slice assignment on lines 262-263 clips the destination slice to the end
of the preallocated (total_orbits, n_params) array, so source and
destination always have the same length maxindex2save.  An element of a
batch stands for one accepted orbit (paired with its log-likelihood when
the element type is instantiated with a pair). -/

/-- One pass of the while loop on sampler.py lines 252-267, consuming a
prescribed sequence of reject() outputs; none models a run that exhausts
the given batches without reaching total_orbits (the real loop would keep
drawing forever). -/
def oftiRunLoop (totalOrbits : Nat) : List (List α) → List α → Option (List α)
  | [], saved => if totalOrbits ≤ saved.length then some saved else none
  | b :: rest, saved =>
    if totalOrbits ≤ saved.length then some saved
    else oftiRunLoop totalOrbits rest (saved ++ b.take (totalOrbits - saved.length))

/-- OFTI.run_sampler (sampler.py lines 233-274): accumulate accepted
orbits until total_orbits are saved; the same array is passed to
results.add_samples and returned. -/
def oftiRunSampler (totalOrbits : Nat) (batches : List (List α)) : Option (List α) :=
  oftiRunLoop totalOrbits batches []

/-! ### MCMC fixed-parameter bookkeeping (sampler.py lines 322-331 and 358-382) -/

/-- The prior configuration of MCMC.__init__: one entry per system
parameter, some v for a fixed parameter (a plain scalar without
draw_samples), none for a samplable prior (sampler.py lines 322-331). -/
abbrev PriorConfig (α : Type) := List (Option α)

/-- self.fixed_params: the (original index, value) pairs of the fixed
entries, in increasing index order exactly as produced by the enumerate
loop of sampler.py lines 325-331. -/
def fixedParams : PriorConfig α → List (Nat × α)
  | [] => []
  | none :: rest => (fixedParams rest).map (fun p => (p.1 + 1, p.2))
  | some v :: rest => (0, v) :: (fixedParams rest).map (fun p => (p.1 + 1, p.2))

/-- Number of samplable (non-fixed) parameters, len(self.priors). -/
def numSampled : PriorConfig α → Nat
  | [] => 0
  | none :: rest => numSampled rest + 1
  | some _ :: rest => numSampled rest

/-- np.insert(arr, i, v) on a 1-D array, for an in-range index i ≤ len(arr)
(every index produced by fixedParams is in range at its insertion time). -/
def npInsert (l : List α) (i : Nat) (v : α) : List α :=
  l.take i ++ v :: l.drop i

/-- MCMC._fill_in_fixed_params on a 1-D sampled-parameter array
(sampler.py lines 358-382): successive np.insert calls, one per fixed
parameter, in the stored order. -/
def fillInFixedParams (fp : List (Nat × α)) (sampled : List α) : List α :=
  fp.foldl (fun acc p => npInsert acc p.1 p.2) sampled

/-- MCMC._fill_in_fixed_params on a 2-D (num_models, num_params) array:
np.insert(..., index, value, axis=1) inserts a constant column, i.e. acts
as the 1-D insert on every row (sampler.py lines 377-378). -/
def fillInFixedParams2D (fp : List (Nat × α)) (rows : List (List α)) : List (List α) :=
  fp.foldl (fun acc p => acc.map (fun r => npInsert r p.1 p.2)) rows

/-- Reference reassembly of a full parameter vector: fixed values at their
configured positions, sampled values in order at the remaining positions. -/
def interleave : PriorConfig α → List α → List α
  | [], _ => []
  | some v :: rest, s => v :: interleave rest s
  | none :: _, [] => []
  | none :: rest, x :: xs => x :: interleave rest xs

/-- The entries of a full parameter vector at the samplable positions. -/
def extractSampled : PriorConfig α → List α → List α
  | [], _ => []
  | some _ :: rest, _ :: ys => extractSampled rest ys
  | none :: rest, y :: ys => y :: extractSampled rest ys
  | _, [] => []

/-! ### Kepler's third law and the OFTI tau recomputation
(kepler.py lines 51-53, sampler.py lines 160-199)

Machine floats are modelled by real numbers.  The gravitational constant
and the astropy unit conversions (AU, Msun, day) are folded into one
positive coefficient g, so period = sqrt(4 pi^2 sma^3 / (g mtot)) in days
exactly as on kepler.py line 51 and sampler.py lines 160-163 and 189-192. -/

/-- Orbital period from Kepler's third law (kepler.py lines 51-52,
sampler.py lines 160-163). -/
noncomputable def keplerPeriod (g sma mtot : ℝ) : ℝ :=
  Real.sqrt (4 * Real.pi ^ 2 * sma ^ 3 / (g * mtot))

/-- meananno of sampler.py line 164: the anchor-epoch mean anomaly in
fraction-of-period units, epoch/period - tau. -/
noncomputable def oftiMeanAnno (epoch period tau : ℝ) : ℝ := epoch / period - tau

/-- The recomputed epoch of periastron of sampler.py line 194:
tau = (epoch/period_new - meananno) % 1; the Python float modulo with
positive modulus 1 is x - floor x, i.e. Int.fract. -/
noncomputable def oftiNewTau (epoch periodNew meananno : ℝ) : ℝ :=
  Int.fract (epoch / periodNew - meananno)

/-! ### Anomaly solver, per element (kepler.py lines 108-235)

All vectorised operations in _calc_ecc_anom and _newton_solver act
elementwise; the global while loop of lines 165-170 updates exactly the
elements whose residual still exceeds the tolerance, so each element
follows the per-element recursion below.  The loop guard
(niter <= max_iter) allows at most max_iter + 1 passes. -/

/-- The Newton correction term (kepler.py lines 158-161 and 167):
(E - e sin E - M) / (1 - e cos E). -/
noncomputable def newtonDiff (manom ecc x : ℝ) : ℝ :=
  (x - ecc * Real.sin x - manom) / (1 - ecc * Real.cos x)

/-- The two unconditional Newton steps applied to the seed E = M
(kepler.py lines 155-159). -/
noncomputable def newtonInit (manom ecc : ℝ) : ℝ :=
  let e1 := manom - newtonDiff manom ecc manom
  e1 - newtonDiff manom ecc e1

/-- The while loop of kepler.py lines 161-170 for one element: update
E := E - diff while |diff| > tolerance, for at most the given number of
passes (max_iter + 1 at the call site). -/
noncomputable def newtonLoop (manom ecc tol : ℝ) : Nat → ℝ → ℝ
  | 0, x => x
  | n + 1, x =>
    if |newtonDiff manom ecc x| ≤ tol then x
    else newtonLoop manom ecc tol n (x - newtonDiff manom ecc x)

/-- The analytical Mikkola solver (kepler.py lines 197-235), transcribed
term by term; integer-valued float exponents are natural powers and
z**(1/3) is the real power of the nonnegative base z. -/
noncomputable def mikkolaSolver (manom ecc : ℝ) : ℝ :=
  let alpha := (1 - ecc) / (4 * ecc + 1/2)
  let beta := (1/2 * manom) / (4 * ecc + 1/2)
  let aux := Real.sqrt (beta ^ 2 + alpha ^ 3)
  let z := (beta + aux) ^ ((1 : ℝ) / 3)
  let s0 := z - alpha / z
  let s1 := s0 - (0.078 * s0 ^ 5) / (1 + ecc)
  let e0 := manom + ecc * (3 * s1 - 4 * s1 ^ 3)
  let se0 := Real.sin e0
  let ce0 := Real.cos e0
  let f := e0 - ecc * se0 - manom
  let f1 := 1 - ecc * ce0
  let f2 := ecc * se0
  let f3 := ecc * ce0
  let f4 := -f2
  let u1 := -f / f1
  let u2 := -f / (f1 + 1/2 * f2 * u1)
  let u3 := -f / (f1 + 1/2 * f2 * u2 + 1/6 * f3 * u2 ^ 2)
  let u4 := -f / (f1 + 1/2 * f2 * u3 + 1/6 * f3 * u3 ^ 2 + 1/24 * f4 * u3 ^ 3)
  e0 + u4

/-- _mikkola_solver_wrapper per element (kepler.py lines 177-195): reflect
mean anomalies above pi, solve, un-reflect the result. -/
noncomputable def mikkolaSolverWrapper (manom ecc : ℝ) : ℝ :=
  let m := if Real.pi < manom then 2 * Real.pi - manom else manom
  let ean := mikkolaSolver m ecc
  if Real.pi < manom then 2 * Real.pi - ean else ean

/-- _newton_solver per element (kepler.py lines 141-175): seed, two
unconditional steps, the guarded while loop, and the post-loop handoff of
any still-unconverged element to the Mikkola solver (lines 171-173). -/
noncomputable def newtonSolver (manom ecc tol : ℝ) (maxIter : Nat) : ℝ :=
  let x := newtonLoop manom ecc tol (maxIter + 1) (newtonInit manom ecc)
  if tol < |newtonDiff manom ecc x| then mikkolaSolverWrapper manom ecc else x

/-- _calc_ecc_anom per element (kepler.py lines 108-139): eanom starts as
NaN (modelled by none), then the three masked writes of lines 128-137 run
in order; note the ecc == 0 write is overwritten by the ecc < 0.95 Newton
write.  The two regime masks cover every eccentricity, so the NaN
placeholder never survives and the final getD default is never used. -/
noncomputable def calcEccAnom (manom ecc tol : ℝ) (maxIter : Nat) : ℝ :=
  let eanZero : Option ℝ := if ecc = 0 then some manom else none
  let eanLow : Option ℝ :=
    if ecc < 0.95 then some (newtonSolver manom ecc tol maxIter) else eanZero
  let eanHigh : Option ℝ :=
    if 0.95 ≤ ecc then some (mikkolaSolverWrapper manom ecc) else eanLow
  eanHigh.getD 0

/-! ### calc_orbit parameter binding and sky-plane projection
(kepler.py lines 10-106, sampler.py lines 166-170) -/

/-- The positional parameter list of kepler.calc_orbit
(kepler.py line 10): epochs, sma, ecc, tau, argp, lan, inc, plx, mtot. -/
structure CalcOrbitArgs where
  epochs : ℝ
  sma : ℝ
  ecc : ℝ
  tau : ℝ
  argp : ℝ
  lan : ℝ
  inc : ℝ
  plx : ℝ
  mtot : ℝ

/-- Binding positional arguments to calc_orbit in its signature order. -/
def calcOrbitBind (epochs sma ecc tau argp lan inc plx mtot : ℝ) : CalcOrbitArgs :=
  ⟨epochs, sma, ecc, tau, argp, lan, inc, plx, mtot⟩

/-- The positional call made by OFTI.prepare_samples (sampler.py lines
167-169): calc_orbit(epoch, sma, ecc, inc, argp, lan, tau, plx, mtot),
with the sampled inclination in the fourth position and the sampled tau
in the seventh. -/
def prepareSamplesProjCall (epoch sma ecc inc argp lan tau plx mtot : ℝ) : CalcOrbitArgs :=
  calcOrbitBind epoch sma ecc inc argp lan tau plx mtot

/-- RA offset of kepler.py lines 69-82:
radius * (cos^2(inc/2) sin(tanom+argp+lan) - sin^2(inc/2) sin(tanom+argp-lan)) * plx * 1e-3. -/
noncomputable def raoffF (radius inc tanom argp lan plx : ℝ) : ℝ :=
  radius * (Real.cos (inc / 2) ^ 2 * Real.sin (tanom + argp + lan)
    - Real.sin (inc / 2) ^ 2 * Real.sin (tanom + argp - lan)) * (plx * 1e-3)

/-- Dec offset of kepler.py lines 69-83. -/
noncomputable def deoffF (radius inc tanom argp lan plx : ℝ) : ℝ :=
  radius * (Real.cos (inc / 2) ^ 2 * Real.cos (tanom + argp + lan)
    + Real.sin (inc / 2) ^ 2 * Real.cos (tanom + argp - lan)) * (plx * 1e-3)

/-- Modelled from the spec: the separation returned by the external
conversion routine radec_to_seppa consumed by the core (spec section 6);
orbitize.system.radec2seppa is not under src/.  sep = hypot(ra, dec). -/
noncomputable def radec2seppaSep (ra dec : ℝ) : ℝ := Real.sqrt (ra ^ 2 + dec ^ 2)

/-- Projected separation of one orbit at one epoch, as prepare_samples
computes it on sampler.py line 170 from the calc_orbit outputs. -/
noncomputable def sepProj (radius inc tanom argp lan plx : ℝ) : ℝ :=
  radec2seppaSep (raoffF radius inc tanom argp lan plx)
    (deoffF radius inc tanom argp lan plx)

/-! ### Array-level model of _calc_ecc_anom with numpy aliasing
(kepler.py lines 124-137 and 190-193)

Arrays are lists of reals; a state-threading embedding returns, next to
the computed values, the arrays as the caller observes them after the
call.  Advanced (fancy) indexing such as manom[ind_high] produces a new
array (a copy), while a masked assignment such as manom[ind_change] = ...
mutates the indexed array object in place.  -/

/-- _mikkola_solver_wrapper on whole arrays: line 191 assigns through the
mask manom > pi, mutating the argument array in place; the returned pair
is (eanom, the argument array as left behind by the call). -/
noncomputable def mikkolaSolverWrapperArr (manom ecc : List ℝ) : List ℝ × List ℝ :=
  let manomRef := manom.map (fun m => if Real.pi < m then 2 * Real.pi - m else m)
  let ean := List.zipWith mikkolaSolver manomRef ecc
  let eanUnref := List.zipWith
    (fun m e => if Real.pi < m then 2 * Real.pi - e else e) manom ean
  (eanUnref, manomRef)

/-- _calc_ecc_anom on whole arrays (kepler.py lines 108-139), returning
(eanom, manom after the call, ecc after the call).  Each entry of eanom
follows the per-element calcEccAnom (the masked writes of lines 129, 133
and 137 are elementwise, and the vectorised Newton loop freezes converged
elements, matching newtonLoop per element).  The wrapper call on line 137
receives the advanced-indexing copies manom[ind_high] and ecc[ind_high],
so the reflection of line 191 mutates only that copy, which the caller
then discards; no statement assigns into manom or ecc themselves. -/
noncomputable def calcEccAnomArr (manom ecc : List ℝ) (tol : ℝ) (maxIter : Nat) :
    List ℝ × List ℝ × List ℝ :=
  let eanom := List.zipWith (fun m e => calcEccAnom m e tol maxIter) manom ecc
  let highCopy := (manom.zip ecc).filter (fun p => decide ((0.95 : ℝ) ≤ p.2))
  let wrapperLeftover := (mikkolaSolverWrapperArr (highCopy.map Prod.fst)
    (highCopy.map Prod.snd)).2
  let _ := wrapperLeftover
  (eanom, manom, ecc)

theorem npInsert_zero (l : List α) (v : α) : npInsert l 0 v = v :: l := rfl

theorem npInsert_succ_cons (a : α) (l : List α) (i : Nat) (v : α) :
    npInsert (a :: l) (i + 1) v = a :: npInsert l i v := rfl

theorem foldl_npInsert_shift (fp : List (Nat × α)) (a : α) (l : List α) :
    List.foldl (fun acc p => npInsert acc p.1 p.2) (a :: l)
      (fp.map (fun p => (p.1 + 1, p.2)))
      = a :: List.foldl (fun acc p => npInsert acc p.1 p.2) l fp := by
  induction fp generalizing l with
  | nil => rfl
  | cons p rest ih =>
    simp only [List.map_cons, List.foldl_cons, npInsert_succ_cons]
    exact ih (npInsert l p.1 p.2)

theorem fillInFixedParams_eq_interleave (cfg : PriorConfig α) (s : List α)
    (h : s.length = numSampled cfg) :
    fillInFixedParams (fixedParams cfg) s = interleave cfg s := by
  induction cfg generalizing s with
  | nil =>
    have : s = [] := List.eq_nil_of_length_eq_zero h
    subst this; rfl
  | cons o rest ih =>
    cases o with
    | some v =>
      simp only [fixedParams, fillInFixedParams, List.foldl_cons, npInsert_zero,
        interleave]
      rw [foldl_npInsert_shift]
      exact congrArg (v :: ·) (ih s h)
    | none =>
      simp only [numSampled] at h
      cases s with
      | nil => simp at h
      | cons x xs =>
        simp only [fixedParams, fillInFixedParams, interleave]
        rw [foldl_npInsert_shift]
        exact congrArg (x :: ·) (ih xs (by simpa using h))

theorem fixedParams_length_add (cfg : PriorConfig α) :
    (fixedParams cfg).length + numSampled cfg = cfg.length := by
  induction cfg with
  | nil => rfl
  | cons o rest ih =>
    cases o <;> simp only [fixedParams, numSampled, List.length_map,
      List.length_cons] <;> omega

theorem interleave_length (cfg : PriorConfig α) (s : List α)
    (h : s.length = numSampled cfg) :
    (interleave cfg s).length = cfg.length := by
  induction cfg generalizing s with
  | nil => rfl
  | cons o rest ih =>
    cases o with
    | some v => simpa [interleave] using ih s h
    | none =>
      simp only [numSampled] at h
      cases s with
      | nil => simp at h
      | cons x xs => simpa [interleave] using ih xs (by simpa using h)

theorem interleave_get_fixed (cfg : PriorConfig α) (s : List α) (i : Nat) (v : α)
    (h : s.length = numSampled cfg) (hget : cfg.get? i = some (some v)) :
    (interleave cfg s).get? i = some v := by
  induction cfg generalizing s i with
  | nil => simp at hget
  | cons o rest ih =>
    cases o with
    | some w =>
      cases i with
      | zero => simp_all [interleave]
      | succ j => simpa [interleave] using ih s j h (by simpa using hget)
    | none =>
      simp only [numSampled] at h
      cases s with
      | nil => simp at h
      | cons x xs =>
        cases i with
        | zero => simp at hget
        | succ j =>
          simpa [interleave] using ih xs j (by simpa using h) (by simpa using hget)

theorem extractSampled_interleave (cfg : PriorConfig α) (s : List α)
    (h : s.length = numSampled cfg) :
    extractSampled cfg (interleave cfg s) = s := by
  induction cfg generalizing s with
  | nil =>
    have : s = [] := List.eq_nil_of_length_eq_zero h
    subst this; rfl
  | cons o rest ih =>
    cases o with
    | some v => simpa [interleave, extractSampled] using ih s h
    | none =>
      simp only [numSampled] at h
      cases s with
      | nil => simp at h
      | cons x xs =>
        simpa [interleave, extractSampled] using ih xs (by simpa using h)

theorem fillInFixedParams2D_eq_map (fp : List (Nat × α)) (rows : List (List α)) :
    fillInFixedParams2D fp rows = rows.map (fillInFixedParams fp) := by
  induction fp generalizing rows with
  | nil =>
    simp only [fillInFixedParams2D, List.foldl_nil]
    have h : rows.map (fillInFixedParams ([] : List (Nat × α))) = rows := by
      induction rows with
      | nil => rfl
      | cons r rs ihr => simp only [List.map_cons, ihr]; rfl
    exact h.symm
  | cons p rest ih =>
    simp only [fillInFixedParams2D, List.foldl_cons] at *
    rw [ih, List.map_map]
    rfl

theorem newtonDiff_zero_ecc (manom x : ℝ) :
    newtonDiff manom 0 x = x - manom := by
  simp [newtonDiff]

theorem newtonInit_zero_ecc (manom : ℝ) : newtonInit manom 0 = manom := by
  simp [newtonInit, newtonDiff_zero_ecc]

theorem sepProj_sq (radius inc tanom argp lan plx : ℝ) :
    raoffF radius inc tanom argp lan plx ^ 2
      + deoffF radius inc tanom argp lan plx ^ 2
      = (radius * (plx * 1e-3)) ^ 2
        * (1 - 2 * (Real.cos (inc / 2) ^ 2 * Real.sin (inc / 2) ^ 2)
          * (1 - Real.cos (2 * (tanom + argp)))) := by
  have hA := Real.sin_sq_add_cos_sq (tanom + argp + lan)
  have hB := Real.sin_sq_add_cos_sq (tanom + argp - lan)
  have hI := Real.sin_sq_add_cos_sq (inc / 2)
  have hsum : (tanom + argp + lan) + (tanom + argp - lan) = 2 * (tanom + argp) := by
    ring
  have hcos : Real.cos (2 * (tanom + argp))
      = Real.cos (tanom + argp + lan) * Real.cos (tanom + argp - lan)
        - Real.sin (tanom + argp + lan) * Real.sin (tanom + argp - lan) := by
    rw [← hsum, Real.cos_add]
  rw [raoffF, deoffF, hcos]
  linear_combination (radius * (plx * 1e-3)) ^ 2 *
    (Real.cos (inc / 2) ^ 4 * hA + Real.sin (inc / 2) ^ 4 * hB
      + (Real.cos (inc / 2) ^ 2 + Real.sin (inc / 2) ^ 2 + 1) * hI)

theorem sepProj_zero_inc (radius tanom argp lan plx : ℝ)
    (hr : 0 ≤ radius) (hp : 0 ≤ plx) :
    sepProj radius 0 tanom argp lan plx = radius * (plx * 1e-3) := by
  have hK : 0 ≤ radius * (plx * 1e-3) := by positivity
  rw [sepProj, radec2seppaSep, sepProj_sq]
  have hfac : (1 : ℝ) - 2 * (Real.cos (0 / 2) ^ 2 * Real.sin (0 / 2) ^ 2)
      * (1 - Real.cos (2 * (tanom + argp))) = 1 := by
    norm_num [Real.cos_zero, Real.sin_zero]
  rw [hfac, mul_one, Real.sqrt_sq hK]

theorem sepProj_lt_of_inclined (radius inc tanom argp lan plx : ℝ)
    (hr : 0 < radius) (hp : 0 < plx) (hsin : Real.sin inc ≠ 0)
    (hcos : Real.cos (2 * (tanom + argp)) < 1) :
    sepProj radius inc tanom argp lan plx < radius * (plx * 1e-3) := by
  have hK : 0 < radius * (plx * 1e-3) := by positivity
  have h2 : Real.sin inc = 2 * (Real.sin (inc / 2) * Real.cos (inc / 2)) := by
    rw [show inc = 2 * (inc / 2) by ring, Real.sin_two_mul]
    ring_nf
  have hsc : Real.sin (inc / 2) * Real.cos (inc / 2) ≠ 0 := by
    intro h
    exact hsin (by rw [h2, h, mul_zero])
  have hpos : 0 < Real.cos (inc / 2) ^ 2 * Real.sin (inc / 2) ^ 2 := by
    have hsq := pow_two_pos_of_ne_zero hsc
    nlinarith [hsq]
  have hlt : raoffF radius inc tanom argp lan plx ^ 2
      + deoffF radius inc tanom argp lan plx ^ 2
      < (radius * (plx * 1e-3)) ^ 2 := by
    rw [sepProj_sq]
    nlinarith [mul_pos (pow_pos hK 2) (mul_pos hpos (sub_pos.mpr hcos))]
  calc sepProj radius inc tanom argp lan plx
      < Real.sqrt ((radius * (plx * 1e-3)) ^ 2) := by
        rw [sepProj, radec2seppaSep]
        exact Real.sqrt_lt_sqrt (by positivity) hlt
    _ = radius * (plx * 1e-3) := Real.sqrt_sq hK.le

theorem oftiRunLoop_length (totalOrbits : Nat) (batches : List (List α)) :
    ∀ saved out, saved.length ≤ totalOrbits →
      oftiRunLoop totalOrbits batches saved = some out →
      out.length = totalOrbits := by
  induction batches with
  | nil =>
    intro saved out hle h
    by_cases hc : totalOrbits ≤ saved.length
    · simp only [oftiRunLoop, if_pos hc] at h
      injection h with h2
      subst h2
      omega
    · simp only [oftiRunLoop, if_neg hc] at h
      exact Option.noConfusion h
  | cons b rest ih =>
    intro saved out hle h
    by_cases hc : totalOrbits ≤ saved.length
    · simp only [oftiRunLoop, if_pos hc] at h
      injection h with h2
      subst h2
      omega
    · simp only [oftiRunLoop, if_neg hc] at h
      refine ih _ out ?_ h
      have ht : (b.take (totalOrbits - saved.length)).length
          ≤ totalOrbits - saved.length := by
        simp [List.length_take]
      rw [List.length_append]
      omega

/-- Claim C1: the spec states that after OFTI.prepare_samples, re-projecting
the returned (rescaled sma, rotated lan, recomputed tau) at the anchor
epoch reproduces the perturbed observed separation and position angle
exactly.  The code violates this: sampler.py lines 167-169 pass the
arguments positionally as calc_orbit(epoch, sma, ecc, inc, argp, lan,
tau, plx, mtot) against the signature calc_orbit(epochs, sma, ecc, tau,
argp, lan, inc, plx, mtot) of kepler.py line 10, so the sampled
inclination lands in the tau slot and the recomputed tau in the
inclination slot (first conjunct).  The claimed exactness then fails:
the prepare-time separation equals radius * plx * 1e-3 exactly when the
effective inclination is 0 (second conjunct), but the re-projection runs
at effective inclination tau_new, and any inclination with nonzero sine
strictly shrinks the projected separation whenever
cos(2(tanom + argp)) < 1 — witnessed here at inclination pi/2 with
tanom = pi/2 (third conjunct) — so the re-projected separation cannot
equal the anchor-matched target. -/
theorem prepare_samples_reprojection_misses_anchor :
    ((prepareSamplesProjCall 0 1 0 (Real.pi / 2) 0 0 (1/4) 1000 1).tau = Real.pi / 2
      ∧ (prepareSamplesProjCall 0 1 0 (Real.pi / 2) 0 0 (1/4) 1000 1).inc = 1/4)
    ∧ sepProj 1 0 (Real.pi / 2) 0 0 1000 = 1 * (1000 * 1e-3)
    ∧ sepProj 1 (Real.pi / 2) (Real.pi / 2) 0 0 1000 < 1 * (1000 * 1e-3) := by
  refine ⟨⟨rfl, rfl⟩,
    sepProj_zero_inc 1 (Real.pi / 2) 0 0 1000 (by norm_num) (by norm_num), ?_⟩
  apply sepProj_lt_of_inclined 1 (Real.pi / 2) (Real.pi / 2) 0 0 1000
    (by norm_num) (by norm_num)
  · rw [Real.sin_pi_div_two]
    norm_num
  · rw [show 2 * (Real.pi / 2 + 0) = Real.pi by ring, Real.cos_pi]
    norm_num

/-- Claim C2: whenever OFTI.run_sampler(total_orbits, num_samples)
terminates, the array it returns (which is also exactly what it appends
to the results sink, sampler.py lines 269-274) contains exactly
total_orbits accepted orbits — never more, never fewer — regardless of
how many orbits each reject() batch contributes (elements here stand for
accepted orbits paired with their log-likelihoods, which lines 262-263
store with identical indices). -/
theorem ofti_run_sampler_returns_exactly_total (totalOrbits : Nat)
    (batches : List (List α)) (out : List α)
    (h : oftiRunSampler totalOrbits batches = some out) :
    out.length = totalOrbits :=
  oftiRunLoop_length totalOrbits batches [] out (by simp) h

theorem ofti_run_sampler_returns_exactly_total_witness :
    oftiRunSampler 2 [[5], [7, 9]] = some [5, 7]
      ∧ ([5, 7] : List Nat).length = 2 :=
  ⟨rfl, ofti_run_sampler_returns_exactly_total 2 [[5], [7, 9]] [5, 7] rfl⟩

/-- Claim C3 (counterexample): the claim says MCMC.run_sampler with
total_orbits ≤ num_walkers fails the assertion before sampling.  At
total_orbits = 1, num_walkers = 1000 (the default) we have
nsteps = ceil(1/1000) = 1, the assert on sampler.py line 460 passes, and
sampling runs — although 1 ≤ 1000. -/
theorem mcmc_assert_passes_below_num_walkers :
    mcmcNsteps 1 1000 = 1 ∧ mcmcAssertPasses 1 1000 ∧ (1 : Nat) ≤ 1000 := by
  have h1 : mcmcNsteps 1 1000 = 1 := by
    rw [mcmcNsteps, Int.ceil_eq_iff]
    norm_num
  refine ⟨h1, ?_, by norm_num⟩
  rw [mcmcAssertPasses, h1]
  norm_num

/-- Claim C3 (amended): for positive num_walkers the assertion
nsteps > 0 of sampler.py line 460 passes iff total_orbits ≥ 1; sampling
iterations run for every positive total_orbits, including all values up
to and equal to num_walkers, and the run is rejected only for
total_orbits = 0. -/
theorem mcmc_assert_iff_total_pos (t w : Nat) (hw : 0 < w) :
    mcmcAssertPasses t w ↔ 0 < t := by
  unfold mcmcAssertPasses mcmcNsteps
  rw [Int.ceil_pos]
  constructor
  · intro h
    rcases Nat.eq_zero_or_pos t with h0 | h0
    · subst h0
      simp at h
    · exact h0
  · intro ht
    exact div_pos (by exact_mod_cast ht) (by exact_mod_cast hw)

theorem mcmc_assert_iff_total_pos_witness :
    mcmcAssertPasses 0 2 ↔ 0 < 0 :=
  mcmc_assert_iff_total_pos 0 2 (by norm_num)

/-- Claim C4: chop_chains(burn=10, trim=5) on a 100-step chain with 1000
walkers should yield an 85-step chain with flattened arrays of length
1000 * 85.  The slice of sampler.py line 599 indeed keeps 1000 * 85
log-likelihood entries, but the reshape of line 604 requests
self.num_walkers * nsteps elements, and even reading the stale name
nsteps as the pre-chop step count 100 the sizes disagree, so the reshape
cannot succeed (at runtime the method fails even earlier: nsteps is an
undefined name, and line 600 contains an unbalanced closing
parenthesis). -/
theorem chop_chains_reshape_length_mismatch :
    chopLnlikesLen 1000 100 10 5 = 1000 * 85
      ∧ chopLnlikesLen 1000 100 10 5 ≠ chopReshapeRequestedLen 1000 100 := by
  constructor <;> norm_num [chopLnlikesLen, chopReshapeRequestedLen]

/-- Claim C5: MCMC._fill_in_fixed_params applied to a sampled-parameter
vector of length R = total - fixed count returns a vector of length
R + fixed count, places every fixed value at its original configured
index, keeps the sampled values in their relative order (extracting the
samplable positions gives back the input), acts row-wise on 2-D input,
and returns the input unchanged when no parameter is fixed. -/
theorem fill_in_fixed_params_correct {α : Type} (cfg : PriorConfig α)
    (s : List α) (rows : List (List α)) (h : s.length = numSampled cfg) :
    (fillInFixedParams (fixedParams cfg) s).length
        = numSampled cfg + (fixedParams cfg).length
      ∧ (∀ i v, cfg.get? i = some (some v) →
          (fillInFixedParams (fixedParams cfg) s).get? i = some v)
      ∧ extractSampled cfg (fillInFixedParams (fixedParams cfg) s) = s
      ∧ fillInFixedParams2D (fixedParams cfg) rows
          = rows.map (fillInFixedParams (fixedParams cfg))
      ∧ (fixedParams cfg = [] → fillInFixedParams (fixedParams cfg) s = s) := by
  have hi := fillInFixedParams_eq_interleave cfg s h
  refine ⟨?_, ?_, ?_, fillInFixedParams2D_eq_map _ _, ?_⟩
  · rw [hi, interleave_length cfg s h]
    have := fixedParams_length_add cfg
    omega
  · intro i v hv
    rw [hi]
    exact interleave_get_fixed cfg s i v h hv
  · rw [hi]
    exact extractSampled_interleave cfg s h
  · intro hfp
    simp [fillInFixedParams, hfp]

theorem fill_in_fixed_params_correct_witness :
    ([1, 2] : List Nat).length = numSampled [some 9, none, some 7, none]
      ∧ (fillInFixedParams (fixedParams ([some 9, none, some 7, none] : PriorConfig Nat))
          [1, 2]).length
        = numSampled ([some 9, none, some 7, none] : PriorConfig Nat)
          + (fixedParams ([some 9, none, some 7, none] : PriorConfig Nat)).length :=
  ⟨by decide,
    (fill_in_fixed_params_correct [some 9, none, some 7, none] [1, 2] [[1, 2]]
      (by decide)).1⟩

/-- Claim C6: in OFTI.prepare_samples the recomputed tau preserves the
anchor-epoch mean anomaly under the new period: with
meananno = epoch/period_prescale - tau (line 164) and
tau_new = (epoch/period_new - meananno) % 1 (line 194), the difference
epoch/period_new - tau_new - meananno is an integer, i.e.
epoch/period_new - tau_new ≡ meananno (mod 1), where period_prescale and
period_new are the Kepler-third-law periods of the original and the
rescaled semi-major axis. -/
theorem prepare_samples_tau_preserves_mean_anomaly
    (g epoch sma smaNew mtot tau : ℝ) :
    ∃ k : ℤ,
      epoch / keplerPeriod g smaNew mtot
          - oftiNewTau epoch (keplerPeriod g smaNew mtot)
              (oftiMeanAnno epoch (keplerPeriod g sma mtot) tau)
          - oftiMeanAnno epoch (keplerPeriod g sma mtot) tau
        = k := by
  refine ⟨⌊epoch / keplerPeriod g smaNew mtot
    - oftiMeanAnno epoch (keplerPeriod g sma mtot) tau⌋, ?_⟩
  simp only [oftiNewTau, Int.fract]
  ring

/-- Claim C7: for eccentricity exactly 0 the anomaly solver returns the
input mean anomaly exactly, for every mean anomaly and every nonnegative
tolerance.  (In the code the e == 0 write of kepler.py line 129 is
overwritten by the e < 0.95 Newton write of line 133, but the Newton
solver at e = 0 also returns the mean anomaly exactly: the seed is M,
every correction term is exactly 0, and each involved machine operation
— multiplying by 0, subtracting 0, dividing by 1 — is exact in floating
point, so the real-number model is faithful.) -/
theorem calc_ecc_anom_zero_ecc_exact (manom tol : ℝ) (maxIter : Nat)
    (htol : 0 ≤ tol) :
    calcEccAnom manom 0 tol maxIter = manom := by
  have hdiff : newtonDiff manom 0 manom = 0 := by
    simp [newtonDiff]
  have hloop : newtonLoop manom 0 tol (maxIter + 1) (newtonInit manom 0) = manom := by
    rw [newtonInit_zero_ecc]
    simp only [newtonLoop, hdiff, abs_zero]
    rw [if_pos htol]
  have hsolver : newtonSolver manom 0 tol maxIter = manom := by
    simp only [newtonSolver, hloop, hdiff, abs_zero]
    rw [if_neg (not_lt.mpr htol)]
  simp only [calcEccAnom]
  rw [if_neg (by norm_num : ¬ (0.95 : ℝ) ≤ 0),
    if_pos (by norm_num : (0 : ℝ) < 0.95)]
  simpa using hsolver

theorem calc_ecc_anom_zero_ecc_exact_witness :
    calcEccAnom 1.5 0 1e-9 100 = 1.5 :=
  calc_ecc_anom_zero_ecc_exact 1.5 1e-9 100 (by norm_num)

/-- Claim C8: in the Newton regime 0 < e < 0.95, an element whose
residual still exceeds the tolerance after the iteration budget is not a
solver failure: _calc_ecc_anom returns for it exactly the value of the
analytical Mikkola solver (kepler.py lines 171-173), a total function of
the inputs — no exception and no NaN. -/
theorem newton_exhaustion_falls_back (manom ecc tol : ℝ) (maxIter : Nat)
    (hlo : 0 < ecc) (hhi : ecc < 0.95)
    (hun : tol < |newtonDiff manom ecc
      (newtonLoop manom ecc tol (maxIter + 1) (newtonInit manom ecc))|) :
    calcEccAnom manom ecc tol maxIter = mikkolaSolverWrapper manom ecc := by
  have hsolver : newtonSolver manom ecc tol maxIter = mikkolaSolverWrapper manom ecc := by
    simp only [newtonSolver]
    rw [if_pos hun]
  simp only [calcEccAnom]
  rw [if_neg (not_le.mpr hhi), if_pos hhi]
  simpa using hsolver

theorem newton_exhaustion_falls_back_witness :
    calcEccAnom 1 (1/2) (-1) 0 = mikkolaSolverWrapper 1 (1/2) :=
  newton_exhaustion_falls_back 1 (1/2) (-1) 0 (by norm_num) (by norm_num)
    (lt_of_lt_of_le (by norm_num) (abs_nonneg _))

/-- Claim C9: _calc_ecc_anom leaves both input arrays exactly as they
were — the reflection that _mikkola_solver_wrapper performs in place on
its argument (kepler.py line 191) is applied only to the
advanced-indexing copy manom[ind_high] and is therefore invisible to the
caller — and the returned values are a pure elementwise function of the
inputs (so two calls on equal inputs agree).  The last conjunct shows the
wrapper itself does mutate the array object it is handed (here 4 > pi is
reflected), so the frame property of _calc_ecc_anom rests exactly on the
copy semantics of advanced indexing. -/
theorem calc_ecc_anom_inputs_unmodified (manom ecc : List ℝ) (tol : ℝ)
    (maxIter : Nat) :
    ((calcEccAnomArr manom ecc tol maxIter).2.1 = manom
      ∧ (calcEccAnomArr manom ecc tol maxIter).2.2 = ecc
      ∧ (calcEccAnomArr manom ecc tol maxIter).1
          = List.zipWith (fun m e => calcEccAnom m e tol maxIter) manom ecc)
    ∧ (mikkolaSolverWrapperArr [4] [49/50]).2 ≠ [4] := by
  refine ⟨⟨rfl, rfl, rfl⟩, ?_⟩
  have hpi4 : Real.pi < 4 := by
    linarith [Real.pi_lt_d2]
  simp only [mikkolaSolverWrapperArr, List.map_cons, List.map_nil]
  rw [if_pos hpi4]
  simp only [ne_eq, List.cons.injEq, and_true]
  intro hcon
  linarith

/-- Claim C10 (counterexample): the claim says calc_orbit output arrays
have shape (N, T) for every N > 1, including T = 1.  The arrays are
built with shape (N, T) (first conjunct), but np.squeeze on kepler.py
lines 102-104 removes every singleton axis, so at N = 2, T = 1 the
returned shape is (2,), not (2, 1). -/
theorem calc_orbit_squeeze_drops_single_epoch :
    tiledParamShape 2 1 = [2, 1] ∧ calcOrbitOutShape 2 1 ≠ [2, 1] := by
  decide

/-- Claim C10 (amended): for N > 1 orbits and T > 1 epochs the three
calc_orbit outputs keep the full shape (N, T) (squeeze removes nothing),
and the tiled epoch array matches the tiled parameter shape; a singleton
axis — the leading one when N = 1, but also the trailing one when T = 1 —
is dropped by np.squeeze. -/
theorem calc_orbit_shape_batch (nOrbs nDates : Nat)
    (hN : 1 < nOrbs) (hT : 1 < nDates) :
    calcOrbitOutShape nOrbs nDates = [nOrbs, nDates]
      ∧ tiledEpochShape nOrbs nDates = tiledParamShape nOrbs nDates := by
  constructor
  · have hN1 : nOrbs ≠ 1 := by omega
    have hT1 : nDates ≠ 1 := by omega
    simp [calcOrbitOutShape, tiledParamShape, transposeShape, tileShape,
      squeezeShape, hN1, hT1]
  · rfl

theorem calc_orbit_shape_batch_witness :
    calcOrbitOutShape 2 3 = [2, 3] ∧ tiledEpochShape 2 3 = tiledParamShape 2 3 :=
  calc_orbit_shape_batch 2 3 (by norm_num) (by norm_num)

end Orbitize
